import Mathlib

/-!
Verification of the feedback-form builder's core model: question-list editing,
form-save validation, submission validation and assembly, and the response
aggregation/statistics computations (average rating, 7-day trend, CSV export).

Each definition is a shallow embedding of a function of the source:
JavaScript strings are modelled by `String`, `String.prototype.trim` by
`jsTrim` (whitespace classified by `Char.isWhitespace`), JavaScript string
truthiness by comparison with `""`, answer maps (plain JS objects keyed by
question id) by association lists, and `parseInt` by `parseIntJS` returning
`Option Int` (with `none` standing for `NaN`).
-/

namespace Feedback

/-- Model of `String.prototype.trim` on the character list: remove leading and
trailing whitespace. -/
def jsTrimL (l : List Char) : List Char :=
  List.rdropWhile Char.isWhitespace (l.dropWhile Char.isWhitespace)

/-- Model of `String.prototype.trim`. -/
def jsTrim (s : String) : String :=
  ⟨jsTrimL s.data⟩

/-- Question types of the form builder: the union `text | multiple_choice | rating`
of `src/types/form`. -/
inductive QType where
  | text
  | multiple_choice
  | rating
deriving DecidableEq, Repr

/-- The `Question` record shared by the builder pages (`CreateForm`, `EditForm`,
`PublicForm`): id, text, type, options, required flag and zero-based order index. -/
structure Question where
  id : String
  question_text : String
  question_type : QType
  options : List String
  is_required : Bool
  order_index : Nat
deriving DecidableEq, Repr

/-- Direction argument of `moveQuestion` in `CreateForm`. -/
inductive Dir where
  | up
  | down
deriving DecidableEq, Repr

/-- Renumbering step shared by the question-list editors: the source maps
`(q, index) => ({ ...q, order_index: index })` over the list; here realised by
recursion carrying the next index. -/
def renumberFrom (n : Nat) : List Question → List Question
  | [] => []
  | q :: t => { q with order_index := n } :: renumberFrom (n + 1) t

/-- Reassign dense `order_index` values `0..N-1` in list order. -/
def renumber (qs : List Question) : List Question :=
  renumberFrom 0 qs

/-- The `addQuestion` of `CreateForm`: append a fresh question (text type, required,
empty options) with `order_index = questions.length`; `newId` stands for the
generated `temp-${Date.now()}` id. -/
def addQuestion (qs : List Question) (newId : String) : List Question :=
  qs ++ [{ id := newId, question_text := "", question_type := QType.text,
           options := [], is_required := true, order_index := qs.length }]

/-- The `addQuestion` of `EditForm`: same append but `is_required` defaults to
false and the new question carries no id yet. -/
def addQuestionEdit (qs : List Question) : List Question :=
  qs ++ [{ id := "", question_text := "", question_type := QType.text,
           options := [], is_required := false, order_index := qs.length }]

/-- The `deleteQuestion` of `CreateForm`: drop the question with the given id and
renumber `order_index` to the new positions. -/
def deleteQuestion (qs : List Question) (qid : String) : List Question :=
  renumber (qs.filter (fun q => q.id ≠ qid))

/-- The `removeQuestion` of `EditForm`: drop the question at the given list index
(`questions.filter((_, i) => i !== index)`) and renumber the remainder. -/
def removeQuestionEdit (qs : List Question) (idx : Nat) : List Question :=
  renumber ((qs.enum.filter (fun p => p.1 ≠ idx)).map (fun p => p.2))

/-- Exchange the elements at positions `i` and `j`; used by `moveQuestion`'s
destructuring swap. Out-of-range positions leave the list unchanged (the caller
checks bounds first). -/
def swapAt (l : List Question) (i j : Nat) : List Question :=
  match l.get? i, l.get? j with
  | some a, some b => (l.set i b).set j a
  | _, _ => l

/-- The `moveQuestion` of `CreateForm`: locate the question by id, swap it with
its neighbour in the given direction, then renumber. `findIdx` returning the
length plays the role of `findIndex` returning `-1`: the operation is a no-op
when the id is absent or the move crosses a boundary. -/
def moveQuestion (qs : List Question) (qid : String) (d : Dir) : List Question :=
  let currentIndex := qs.findIdx (fun q => q.id == qid)
  if currentIndex = qs.length then qs
  else
    let newIndex : Int :=
      match d with
      | Dir.up => (currentIndex : Int) - 1
      | Dir.down => (currentIndex : Int) + 1
    if newIndex < 0 ∨ (qs.length : Int) ≤ newIndex then qs
    else renumber (swapAt qs currentIndex newIndex.toNat)

/-- One editing step on the question list: the add/remove/move operations of the
two builder pages. -/
inductive Op where
  | addCreate (newId : String)
  | addEdit
  | deleteCreate (qid : String)
  | removeEdit (idx : Nat)
  | moveCreate (qid : String) (d : Dir)
deriving Repr

/-- Apply one editing operation. -/
def applyOp (qs : List Question) : Op → List Question
  | Op.addCreate newId => addQuestion qs newId
  | Op.addEdit => addQuestionEdit qs
  | Op.deleteCreate qid => deleteQuestion qs qid
  | Op.removeEdit idx => removeQuestionEdit qs idx
  | Op.moveCreate qid d => moveQuestion qs qid d

/-- Apply a sequence of editing operations starting from the empty question list. -/
def applyOps (ops : List Op) : List Question :=
  ops.foldl applyOp []

/-- Answer map of `PublicForm`: the `answers` record from question id to the
raw entered value, modelled as an association list (keys are unique in a JS
object; `Object.entries` enumerates pairs in insertion order). -/
abbrev AnswerMap := List (String × String)

/-- Missing-answer test of `PublicForm.validateForm` for one required question:
`!answer` (absent or empty) is missing, and a `text` answer whose trimmed value
is empty is also missing. -/
def isMissing (answers : AnswerMap) (q : Question) : Bool :=
  match List.lookup q.id answers with
  | none => true
  | some a => a == "" || (q.question_type == QType.text && jsTrim a == "")

/-- The `missingAnswers` list of `PublicForm.validateForm`: required questions
whose answer fails the presence test, in question order. -/
def missingAnswers (questions : List Question) (answers : AnswerMap) : List Question :=
  (questions.filter (fun q => q.is_required)).filter (isMissing answers)

/-- The `missingQuestionNumbers` of `PublicForm.validateForm`: each missing
question mapped to `findIndex` of its id in the full list, plus one.
(`findIdx` returns the length where `findIndex` would return `-1`; the mapped
questions are drawn from the list, so the id is always found.) -/
def missingNumbers (questions : List Question) (answers : AnswerMap) : List Nat :=
  (missingAnswers questions answers).map
    (fun q => questions.findIdx (fun q2 => q2.id == q.id) + 1)

/-- Error message assembled by `PublicForm.validateForm` on failure. -/
def missingMessage (nums : List Nat) : String :=
  "Please answer all required questions. Missing: Question " ++
    String.intercalate ", " (nums.map Nat.repr)

/-- The `validateForm` of `PublicForm` (submission validation): `none` means the
submission is accepted; otherwise the single collected error message. -/
def validateForm (questions : List Question) (answers : AnswerMap) : Option String :=
  if 0 < (missingAnswers questions answers).length then
    some (missingMessage (missingNumbers questions answers))
  else none

/-- The `answersToInsert` filter of `PublicForm.submitForm`: keep an entry only
if its value is truthy, and additionally has a non-empty trimmed value when the
owning question (looked up by id) has type `text`. -/
def keepAnswer (questions : List Question) (qid : String) (v : String) : Bool :=
  if v == "" then false
  else
    match questions.find? (fun q => q.id == qid) with
    | some q => if q.question_type == QType.text then jsTrim v != "" else true
    | none => true

/-- The `answersToInsert` of `PublicForm.submitForm`: filter the answer map and
store each kept pair with the trimmed answer text. -/
def answersToInsert (questions : List Question) (answers : AnswerMap) : AnswerMap :=
  (answers.filter (fun p => keepAnswer questions p.1 p.2)).map
    (fun p => (p.1, jsTrim p.2))

/-- The question-validation loop of `EditForm.saveForm`, carrying the running
zero-based index: the first question with blank text, or the first
`multiple_choice` question with fewer than 2 options (raw count), produces the
error. -/
def validateQuestionsEdit (i : Nat) : List Question → Option String
  | [] => none
  | q :: rest =>
    if jsTrim q.question_text = "" then
      some ("Question " ++ Nat.repr (i + 1) ++ " text is required")
    else if q.question_type = QType.multiple_choice ∧ q.options.length < 2 then
      some ("Question " ++ Nat.repr (i + 1) ++ " must have at least 2 options")
    else validateQuestionsEdit (i + 1) rest

/-- Validation sequence of `EditForm.saveForm` (edit path): title, question
count, then the per-question loop. `none` means the save proceeds. -/
def validateEdit (title : String) (questions : List Question) : Option String :=
  if jsTrim title = "" then some "Form title is required"
  else if questions.length = 0 then some "At least one question is required"
  else validateQuestionsEdit 0 questions

/-- Validation sequence of `CreateForm.saveForm` (create path): title, question
count, any blank question text, then any `multiple_choice` question with zero
trimmed non-empty options. `none` means the save proceeds. -/
def validateCreate (title : String) (questions : List Question) : Option String :=
  if jsTrim title = "" then some "Form title is required"
  else if questions.length = 0 then some "At least one question is required"
  else if 0 < (questions.filter (fun q => jsTrim q.question_text = "")).length then
    some "All questions must have text"
  else if 0 < (questions.filter (fun q =>
      q.question_type = QType.multiple_choice ∧
        (q.options.filter (fun opt => jsTrim opt ≠ "")).length = 0)).length then
    some "Multiple choice questions must have at least one option"
  else none

/-- Value of a run of decimal digits at the head of the list, or `none` when the
list does not start with a digit. -/
def leadingDigits (l : List Char) : Option Nat :=
  let ds := l.takeWhile Char.isDigit
  if ds = [] then none
  else some (ds.foldl (fun acc c => acc * 10 + (c.toNat - '0'.toNat)) 0)

/-- Model of JavaScript `parseInt(s)` (radix 10): skip leading whitespace, accept
an optional sign, read leading digits; `none` models `NaN`. -/
def parseIntJS (s : String) : Option Int :=
  match s.data.dropWhile Char.isWhitespace with
  | '-' :: rest => (leadingDigits rest).map (fun n => -(n : Int))
  | '+' :: rest => (leadingDigits rest).map (fun n => (n : Int))
  | l => (leadingDigits l).map (fun n => (n : Int))

/-- Model of JavaScript `Math.round`: round half up. -/
def jsRound (x : ℚ) : Int :=
  Int.floor (x + 1 / 2)

/-- Round to one decimal place the way both analytics pages do:
`Math.round(x * 10) / 10`. -/
def round1 (x : ℚ) : ℚ :=
  ((jsRound (x * 10) : ℚ)) / 10

/-- One expanded answer row of the `FormResponses` page (answer joined with its
question's text, type and order). -/
structure FRAnswer where
  question_text : String
  question_type : String
  answer_text : String
  order_index : Nat
deriving DecidableEq, Repr

/-- One transformed response of the `FormResponses` page. `submitted_display`
stands for the locale-rendered `new Date(submitted_at).toLocaleString()` used in
the CSV export, carried as data since locale rendering is environmental. -/
structure FRResponse where
  id : String
  submitted_at : String
  submitted_display : String
  ip_address : Option String
  answers : List FRAnswer
deriving DecidableEq, Repr

/-- The `ratingAnswers` of `FormResponses.loadFormAndResponses`: across all
responses, the `parseInt` values of answers to `rating`-type questions with the
unparsable (`NaN`) ones discarded. -/
def ratingAnswersFR (responses : List FRResponse) : List Int :=
  responses.flatMap (fun r =>
    (((r.answers.filter (fun a => a.question_type == "rating")).map
        (fun a => parseIntJS a.answer_text)).filterMap (fun x => x)))

/-- The `avgRating` statistic of the `FormResponses` page: mean of the parsed
rating answers (0 when there are none), then `Math.round(avg * 10) / 10`. -/
def avgRatingFR (responses : List FRResponse) : ℚ :=
  let vals := ratingAnswersFR responses
  let avg : ℚ :=
    if 0 < vals.length then
      ((vals.foldl (fun s v => s + v) 0 : Int) : ℚ) / (vals.length : ℚ)
    else 0
  round1 avg

/-- Double every double-quote character: model of `.replace(/"/g, '""')`. -/
def escQuotes (s : String) : String :=
  ⟨s.data.flatMap (fun c => if c = '"' then ['"', '"'] else [c])⟩

/-- A CSV field wrapped in double quotes with internal double quotes doubled
(the quoting the CSV claim describes, and the form `FormResponses` uses for
answer fields). -/
def quoteField (s : String) : String :=
  "\"" ++ escQuotes s ++ "\""

/-- Model of JavaScript `x || d` for an optional string: the default replaces
both absence and the empty string. -/
def jsOr (v : Option String) (d : String) : String :=
  match v with
  | none => d
  | some s => if s = "" then d else s

/-- Header row of `FormResponses.exportResponses`: three metadata columns plus
the question texts of the first response (or nothing when there is none). -/
def exportHeaders (responses : List FRResponse) : List String :=
  ["Response ID", "Submitted At", "IP Address"] ++
    (match responses with
     | [] => []
     | r :: _ => r.answers.map (fun a => a.question_text))

/-- One data row of `FormResponses.exportResponses`: the three metadata values
unquoted, then each answer as a quoted field with doubled internal quotes. -/
def exportRow (r : FRResponse) : List String :=
  [r.id, r.submitted_display, jsOr r.ip_address "N/A"] ++
    r.answers.map (fun a => quoteField a.answer_text)

/-- The CSV content assembled by `FormResponses.exportResponses`: header row and
data rows joined by commas, rows joined by newlines. -/
def csvFormResponses (responses : List FRResponse) : String :=
  String.intercalate "\n"
    ((exportHeaders responses :: responses.map exportRow).map
      (String.intercalate ","))

/-- Rendering of the same rows with every field (headers included) quoted and
its internal quotes doubled: the uniform quoting rule the CSV claim states. -/
def csvAllQuotedFR (responses : List FRResponse) : String :=
  String.intercalate "\n"
    ((exportHeaders responses ::
        responses.map (fun r =>
          [r.id, r.submitted_display, jsOr r.ip_address "N/A"] ++
            r.answers.map (fun a => a.answer_text))).map
      (fun row => String.intercalate "," (row.map quoteField)))

/-- One raw nested answer of the `Responses` page query: answer text joined with
its question's text and type. -/
structure RawAnswer where
  answer_text : String
  question_text : String
  question_type : String
deriving DecidableEq, Repr

/-- One response of the `Responses` page before transformation.
`submitted_display` again carries the locale-rendered submission time used by
the CSV export. -/
structure RawResponse where
  id : String
  formTitle : String
  submitted_display : String
  answers : List RawAnswer
deriving DecidableEq, Repr

/-- Insertion into a JS object modelled as an association list: an existing key
keeps its position and takes the new value, a new key is appended. -/
def recordInsert (m : List (String × String)) (k v : String) : List (String × String) :=
  if m.any (fun p => p.1 == k) then
    m.map (fun p => if p.1 == k then (k, v) else p)
  else m ++ [(k, v)]

/-- The `answers` record built by the `Responses` page transformation:
`acc[answer.questions.question_text] = answer.answer_text` over the raw rows. -/
def answersRecord (r : RawResponse) : List (String × String) :=
  r.answers.foldl (fun acc a => recordInsert acc a.question_text a.answer_text) []

/-- Test of the `Responses` page rating filter `/^[1-5]$/` on an answer value. -/
def matches15 (s : String) : Bool :=
  match s.data with
  | [c] => '1' ≤ c ∧ c ≤ '5'
  | _ => false

/-- The `ratingAnswers` of `Responses.loadData`: every answer value (of any
question type) matching `/^[1-5]$/`, converted by `Number` — which on such
single-digit strings coincides with `parseInt`. -/
def ratingAnswersR (responses : List RawResponse) : List Int :=
  responses.flatMap (fun r =>
    (((answersRecord r).map (fun p => p.2)).filter matches15).map
      (fun s => (parseIntJS s).getD 0))

/-- The global `avgRating` statistic of the `Responses` page. -/
def avgRatingR (responses : List RawResponse) : ℚ :=
  let vals := ratingAnswersR responses
  let avg : ℚ :=
    if 0 < vals.length then
      ((vals.foldl (fun s v => s + v) 0 : Int) : ℚ) / (vals.length : ℚ)
    else 0
  round1 avg

/-- What the claim says `averageRating` computes, for the `Responses` page data
shape: the rounded mean over the `parseInt` parses of exactly the answer texts
belonging to `rating`-type questions, unparsable texts discarded, 0 when the
filtered set is empty. -/
def specAverageRatingR (responses : List RawResponse) : ℚ :=
  let vals := (((responses.flatMap (fun r => r.answers)).filter
      (fun a => a.question_type == "rating")).map
      (fun a => a.answer_text)).filterMap parseIntJS
  if vals = [] then 0
  else round1 (((vals.sum : Int) : ℚ) / (vals.length : ℚ))

/-- What the claim says `averageRating` computes, for the `FormResponses` page
data shape. -/
def specAverageRatingFR (responses : List FRResponse) : ℚ :=
  let vals := (((responses.flatMap (fun r => r.answers)).filter
      (fun a => a.question_type == "rating")).map
      (fun a => a.answer_text)).filterMap parseIntJS
  if vals = [] then 0
  else round1 (((vals.sum : Int) : ℚ) / (vals.length : ℚ))

/-- Proleptic Gregorian civil date `(year, month, day)` of a day count relative
to 1970-01-01 — the date arithmetic underlying `Date.setDate` /
`Date.toISOString` for a dashboard reference time taken at UTC. -/
def civilFromDays (z0 : Int) : Int × Int × Int :=
  let z := z0 + 719468
  let era : Int := z.fdiv 146097
  let doe : Int := z - era * 146097
  let yoe : Int := (doe - doe.fdiv 1460 + doe.fdiv 36524 - doe.fdiv 146096).fdiv 365
  let y : Int := yoe + era * 400
  let doy : Int := doe - (365 * yoe + yoe.fdiv 4 - yoe.fdiv 100)
  let mp : Int := (5 * doy + 2).fdiv 153
  let d : Int := doy - (153 * mp + 2).fdiv 5 + 1
  let m : Int := if mp < 10 then mp + 3 else mp - 9
  (if m ≤ 2 then y + 1 else y, m, d)

/-- Two-digit zero padding of a month or day number. -/
def pad2 (n : Int) : String :=
  if n < 10 then "0" ++ n.repr else n.repr

/-- The `YYYY-MM-DD` prefix of `toISOString` for the given day count (years in
the four-digit range need no extra padding). -/
def isoDate (z : Int) : String :=
  (civilFromDays z).1.repr ++ "-" ++ pad2 (civilFromDays z).2.1 ++ "-" ++ pad2 (civilFromDays z).2.2

/-- The `last7Days` of `Dashboard.loadDashboardData`: the ISO dates of the seven
calendar days ending at the reference day (`today`, as a day count) inclusive,
oldest first — entry `i` is the day `6 - i` days before the reference day. -/
def last7Days (today : Int) : List String :=
  (List.range 7).map (fun i : Nat => isoDate (today - (6 - (i : Int))))

/-- One response row as the dashboard trend sees it: its raw `submitted_at`
timestamp string. -/
structure DashResponse where
  submitted_at : String
deriving DecidableEq, Repr

/-- Model of JavaScript `String.prototype.startsWith`: prefix test on the
character lists. -/
def jsStartsWith (s pre : String) : Bool :=
  pre.data.isPrefixOf s.data

/-- The `trendData` of `Dashboard.loadDashboardData`: for each of the seven
dates, the count of responses whose `submitted_at` starts with that ISO date
prefix. -/
def trendData (monthly : List DashResponse) (today : Int) : List (String × Nat) :=
  (last7Days today).map (fun date =>
    (date, (monthly.filter (fun r => jsStartsWith r.submitted_at date)).length))

/-- Model of adding to a JS `Set` that is later spread into an array: appends a
key not seen before, keeps insertion order. -/
def dedupAppend (acc : List String) (k : String) : List String :=
  if acc.contains k then acc else acc ++ [k]

/-- The `allQuestions` set of `Responses.exportToCSV`: every question text
appearing as a key of some response's answers record, in first-seen order. -/
def allQuestions (responses : List RawResponse) : List String :=
  responses.foldl
    (fun acc r => ((answersRecord r).map (fun p => p.1)).foldl dedupAppend acc) []

/-- One data row of `Responses.exportToCSV`: the form title wrapped in plain
double quotes (no doubling of internal quotes), the unquoted display date, then
each question's answer (or the empty string) wrapped in plain double quotes. -/
def csvRowResponses (qs : List String) (r : RawResponse) : List String :=
  ["\"" ++ r.formTitle ++ "\"", r.submitted_display] ++
    qs.map (fun q => "\"" ++ (List.lookup q (answersRecord r)).getD "" ++ "\"")

/-- The CSV content assembled by `Responses.exportToCSV`. -/
def csvResponses (responses : List RawResponse) : String :=
  String.intercalate "\n"
    (String.intercalate "," (["Form Title", "Submitted At"] ++ allQuestions responses) ::
      responses.map (fun r => String.intercalate "," (csvRowResponses (allQuestions responses) r)))

/-- Dense-ordering invariant of a question list: the `order_index` fields read
off in list order are exactly `0..N-1`. -/
def ordOk (qs : List Question) : Prop :=
  qs.map (fun q => q.order_index) = List.range qs.length

/-- Whether the question owning an answer (looked up by id) has type `text` —
the condition the claim's filtering rule turns on. -/
def ownerIsText (questions : List Question) (qid : String) : Bool :=
  match questions.find? (fun q => q.id == qid) with
  | some q => q.question_type == QType.text
  | none => false

/-- What the claim demands of a required question's answer: it is present and
non-empty, and additionally has a non-empty trimmed value when the question has
type `text`. -/
def RequiredOk (answers : AnswerMap) (q : Question) : Prop :=
  ∃ a, List.lookup q.id answers = some a ∧ a ≠ "" ∧
    (q.question_type = QType.text → jsTrim a ≠ "")

instance (answers : AnswerMap) (q : Question) : Decidable (RequiredOk answers q) :=
  match h : List.lookup q.id answers with
  | some a =>
    decidable_of_iff (a ≠ "" ∧ (q.question_type = QType.text → jsTrim a ≠ ""))
      ⟨fun ⟨h1, h2⟩ => ⟨a, h, h1, h2⟩,
       fun ⟨b, hb, h1, h2⟩ => by rw [h] at hb; cases hb; exact ⟨h1, h2⟩⟩
  | none =>
    isFalse (by rintro ⟨a, ha, _⟩; rw [h] at ha; cases ha)

/-- The 1-indexed positions, in question order, of the required questions whose
answer violates the claim's presence rule — the list the claim says the failure
message reports. -/
def specMissingPositions (questions : List Question) (answers : AnswerMap) : List Nat :=
  ((List.finRange questions.length).filter
    (fun i => decide ((questions.get i).is_required = true ∧
      ¬ RequiredOk answers (questions.get i)))).map (fun i => Fin.val i + 1)

/-! ## Lemmas and theorems -/

theorem dropWhile_head_false {α : Type} {p : α → Bool} {m : List α} {b : α}
    {bs : List α} (h : m.dropWhile p = b :: bs) : p b = false := by
  induction m with
  | nil => simp at h
  | cons a t ih =>
    by_cases hpa : p a = true
    · rw [List.dropWhile_cons_of_pos hpa] at h
      exact ih h
    · rw [List.dropWhile_cons_of_neg hpa] at h
      cases h
      simpa using hpa

theorem jsTrimL_idem (l : List Char) : jsTrimL (jsTrimL l) = jsTrimL l := by
  unfold jsTrimL
  cases hB : List.rdropWhile Char.isWhitespace (l.dropWhile Char.isWhitespace) with
  | nil => simp [List.rdropWhile_nil]
  | cons b bs =>
    have hpb : Char.isWhitespace b = false := by
      obtain ⟨t, ht⟩ := List.rdropWhile_prefix Char.isWhitespace (l.dropWhile Char.isWhitespace)
      rw [hB] at ht
      exact dropWhile_head_false (m := l) ht.symm
    rw [List.dropWhile_cons_of_neg (by simp [hpb]), ← hB, List.rdropWhile_idempotent]

theorem jsTrim_idem (s : String) : jsTrim (jsTrim s) = jsTrim s :=
  congrArg String.mk (jsTrimL_idem s.data)

theorem jsTrim_empty : jsTrim "" = "" := rfl

theorem ne_empty_of_jsTrim_ne_empty {s : String} (h : jsTrim s ≠ "") : s ≠ "" := by
  intro he
  exact h (he ▸ jsTrim_empty)

theorem renumberFrom_map_order (n : Nat) (l : List Question) :
    (renumberFrom n l).map (fun q => q.order_index) = List.range' n l.length := by
  induction l generalizing n with
  | nil => rfl
  | cons q t ih => simp [renumberFrom, List.range'_succ, ih]

theorem length_renumberFrom (n : Nat) (l : List Question) :
    (renumberFrom n l).length = l.length := by
  have := congrArg List.length (renumberFrom_map_order n l)
  simpa using this

theorem ordOk_renumber (l : List Question) : ordOk (renumber l) := by
  unfold ordOk renumber
  rw [renumberFrom_map_order, length_renumberFrom, List.range_eq_range']

theorem ordOk_append_new (qs : List Question) (q : Question)
    (hq : q.order_index = qs.length) (h : ordOk qs) : ordOk (qs ++ [q]) := by
  unfold ordOk at h ⊢
  simp only [List.map_append, List.length_append, List.map_cons, List.map_nil,
    List.length_cons, List.length_nil, h, hq]
  rw [List.range_succ]

theorem ordOk_applyOp (qs : List Question) (op : Op) (h : ordOk qs) :
    ordOk (applyOp qs op) := by
  cases op with
  | addCreate newId => exact ordOk_append_new qs _ rfl h
  | addEdit => exact ordOk_append_new qs _ rfl h
  | deleteCreate qid => exact ordOk_renumber _
  | removeEdit idx => exact ordOk_renumber _
  | moveCreate qid d =>
    simp only [applyOp, moveQuestion]
    split
    · exact h
    · split
      · exact h
      · exact ordOk_renumber _

theorem ordOk_foldl (ops : List Op) (qs : List Question) (h : ordOk qs) :
    ordOk (ops.foldl applyOp qs) := by
  induction ops generalizing qs with
  | nil => exact h
  | cons op rest ih => exact ih _ (ordOk_applyOp qs op h)

/-- C1. Starting from the empty question list, after any sequence of
`addQuestion`, `removeQuestion`/`deleteQuestion` and `moveQuestion` operations,
the `order_index` fields of the resulting questions are exactly `0..N-1` in
list order — no duplicates, no gaps. -/
theorem order_index_dense_after_any_ops (ops : List Op) :
    (applyOps ops).map (fun q => q.order_index) = List.range (applyOps ops).length :=
  ordOk_foldl ops [] rfl

theorem keepAnswer_eq_spec (questions : List Question) (p : String × String) :
    keepAnswer questions p.1 p.2 =
      decide (p.2 ≠ "" ∧ (ownerIsText questions p.1 = true → jsTrim p.2 ≠ "")) := by
  by_cases hv : p.2 = ""
  · simp [keepAnswer, hv]
  · cases hf : questions.find? (fun q => q.id == p.1) with
    | none => simp [keepAnswer, ownerIsText, hv, hf]
    | some q =>
      by_cases ht : q.question_type = QType.text
      · by_cases htr : jsTrim p.2 = "" <;>
          simp [keepAnswer, ownerIsText, hv, hf, ht, htr]
      · simp [keepAnswer, ownerIsText, hv, hf, ht]

/-- C2. The submission assembler keeps exactly the entries whose value is
non-empty and whose trimmed value is also non-empty whenever the owning
question has type `text`; every kept entry is stored with the trimmed value.
On answers `{q1: "  hi  ", q2: ""}` with both questions of type `text`, the
output is exactly the single pair `(q1, "hi")`. -/
theorem submission_assembler_filtering :
    (∀ (questions : List Question) (answers : AnswerMap),
      answersToInsert questions answers =
        (answers.filter (fun p =>
          decide (p.2 ≠ "" ∧ (ownerIsText questions p.1 = true → jsTrim p.2 ≠ "")))).map
          (fun p => (p.1, jsTrim p.2))) ∧
    answersToInsert
      [⟨"q1", "Q1", QType.text, [], true, 0⟩, ⟨"q2", "Q2", QType.text, [], true, 1⟩]
      [("q1", "  hi  "), ("q2", "")] = [("q1", "hi")] := by
  constructor
  · intro questions answers
    unfold answersToInsert
    rw [List.filter_congr (fun p _ => keepAnswer_eq_spec questions p)]
  · decide

/-- C10. An answer-map entry whose question id does not occur in the question
list is kept (trimmed) by the submission assembler whenever its value is
non-empty, exactly as a non-text answer would be. -/
theorem assembler_keeps_unknown_question_entries
    (questions : List Question) (answers : AnswerMap) (qid v : String)
    (hq : ∀ q ∈ questions, q.id ≠ qid) (hv : v ≠ "")
    (hmem : (qid, v) ∈ answers) :
    (qid, jsTrim v) ∈ answersToInsert questions answers := by
  unfold answersToInsert
  refine List.mem_map.mpr ⟨(qid, v), List.mem_filter.mpr ⟨hmem, ?_⟩, rfl⟩
  have hfind : questions.find? (fun q => q.id == qid) = none :=
    List.find?_eq_none.mpr (fun q hqm => by simpa using hq q hqm)
  simp [keepAnswer, hv, hfind]

/-- Witness for C10 at a concrete input: the entry for the unknown id `zz` is
kept and trimmed. -/
theorem assembler_keeps_unknown_question_entries_witness :
    ("zz", jsTrim "  yo  ") ∈ answersToInsert
      [⟨"q1", "Q1", QType.text, [], true, 0⟩] [("zz", "  yo  ")] :=
  assembler_keeps_unknown_question_entries
    [⟨"q1", "Q1", QType.text, [], true, 0⟩] [("zz", "  yo  ")] "zz" "  yo  "
    (by decide) (by decide) (by decide)

theorem isMissing_iff_not_requiredOk (answers : AnswerMap) (q : Question) :
    isMissing answers q = true ↔ ¬ RequiredOk answers q := by
  unfold isMissing RequiredOk
  cases h : List.lookup q.id answers with
  | none => simp [h]
  | some a =>
    simp only [h, Option.some.injEq, Bool.or_eq_true, beq_iff_eq, Bool.and_eq_true]
    constructor
    · rintro (ha | ⟨ht, htr⟩) ⟨b, hb, hb1, hb2⟩ <;> cases hb
      · exact hb1 ha
      · exact hb2 ht htr
    · intro hno
      by_cases ha : a = ""
      · exact Or.inl ha
      · by_cases ht : q.question_type = QType.text
        · by_cases htr : jsTrim a = ""
          · exact Or.inr ⟨ht, htr⟩
          · exact absurd ⟨a, rfl, ha, fun _ => htr⟩ hno
        · exact absurd ⟨a, rfl, ha, fun hc => absurd hc ht⟩ hno

theorem findIdx_id_of_nodup (l : List Question)
    (h : (l.map (fun q => q.id)).Nodup) (i : Fin l.length) :
    l.findIdx (fun q2 => q2.id == (l.get i).id) = (i : Nat) := by
  induction l with
  | nil => exact absurd i.isLt (by simp)
  | cons a t ih =>
    rw [List.map_cons] at h
    have hcons := List.nodup_cons.mp h
    rcases i with ⟨iv, hiv⟩
    cases iv with
    | zero => simp [List.findIdx_cons, List.get_cons_zero]
    | succ j =>
      have hj : j < t.length := Nat.lt_of_succ_lt_succ hiv
      have hget : (a :: t).get ⟨j + 1, hiv⟩ = t.get ⟨j, hj⟩ := List.get_cons_succ
      have hne : (a.id == (t.get ⟨j, hj⟩).id) = false := by
        rw [beq_eq_false_iff_ne]
        intro he
        exact hcons.1 (he ▸ List.mem_map_of_mem _ (t.get_mem j hj))
      rw [hget, List.findIdx_cons, hne]
      simpa using ih hcons.2 ⟨j, hj⟩

theorem requiredMissing_eq_decide (answers : AnswerMap) (q : Question) :
    (isMissing answers q && q.is_required) =
      decide (q.is_required = true ∧ ¬ RequiredOk answers q) := by
  by_cases hr : q.is_required = true
  · by_cases hm : isMissing answers q = true
    · simp [hr, hm, (isMissing_iff_not_requiredOk answers q).mp hm]
    · simp only [Bool.not_eq_true] at hm
      have hok : RequiredOk answers q := by
        by_contra hc
        rw [← isMissing_iff_not_requiredOk answers q] at hc
        rw [hm] at hc
        cases hc
      simp [hr, hm, hok]
  · simp only [Bool.not_eq_true] at hr
    simp [hr]

theorem filter_eq_map_finRange_filter {α : Type} (l : List α) (p : α → Bool) :
    l.filter p =
      ((List.finRange l.length).filter (fun i => p (l.get i))).map l.get := by
  conv_lhs => rw [← List.finRange_map_get l]
  rw [List.filter_map]
  rfl

theorem validateForm_eq_none_iff (questions : List Question) (answers : AnswerMap) :
    validateForm questions answers = none ↔
      ∀ q ∈ questions, q.is_required = true → RequiredOk answers q := by
  unfold validateForm
  constructor
  · intro h q hq hreq
    by_contra hnot
    have hmem : q ∈ missingAnswers questions answers := by
      unfold missingAnswers
      exact List.mem_filter.mpr
        ⟨List.mem_filter.mpr ⟨hq, hreq⟩,
         (isMissing_iff_not_requiredOk answers q).mpr hnot⟩
    rw [if_pos (List.length_pos.mpr (List.ne_nil_of_mem hmem))] at h
    cases h
  · intro h
    rw [if_neg]
    simp only [not_lt, Nat.le_zero, List.length_eq_zero]
    unfold missingAnswers
    rw [List.filter_eq_nil_iff]
    intro q hq
    have hq1 := List.mem_filter.mp hq
    intro hmiss
    exact (isMissing_iff_not_requiredOk answers q).mp hmiss
      (h q hq1.1 (by simpa using hq1.2))

/-- C3. Submission validation succeeds exactly when every required question has
a present, non-empty answer whose trim is also non-empty when the question has
type `text`; and on failure (given the question ids are distinct, as database
primary keys are) the single message lists the 1-indexed positions of all
violating questions in question order. -/
theorem submission_validation_characterisation
    (questions : List Question) (answers : AnswerMap) :
    (validateForm questions answers = none ↔
      ∀ q ∈ questions, q.is_required = true → RequiredOk answers q) ∧
    ((questions.map (fun q => q.id)).Nodup →
      missingNumbers questions answers = specMissingPositions questions answers) ∧
    (validateForm questions answers = none ∨
      validateForm questions answers =
        some (missingMessage (missingNumbers questions answers))) := by
  refine ⟨validateForm_eq_none_iff questions answers, ?_, ?_⟩
  · intro hnd
    unfold missingNumbers missingAnswers specMissingPositions
    rw [List.filter_filter, filter_eq_map_finRange_filter, List.map_map]
    have hfun : ∀ i ∈ (List.finRange questions.length).filter
        (fun i => isMissing answers (questions.get i) && (questions.get i).is_required),
        ((fun q => questions.findIdx (fun q2 => q2.id == q.id) + 1) ∘ questions.get) i =
          (fun i : Fin questions.length => (i : Nat) + 1) i := by
      intro i _
      simp only [Function.comp_apply]
      rw [findIdx_id_of_nodup questions hnd i]
    rw [List.map_congr_left hfun]
    have hpred : ∀ i ∈ List.finRange questions.length,
        (isMissing answers (questions.get i) && (questions.get i).is_required) =
          decide ((questions.get i).is_required = true ∧
            ¬ RequiredOk answers (questions.get i)) :=
      fun i _ => requiredMissing_eq_decide answers (questions.get i)
    rw [List.filter_congr hpred]
  · unfold validateForm
    split
    · exact Or.inr rfl
    · exact Or.inl rfl

/-- Witness for C3 at a concrete input: questions 1 and 3 (a whitespace-only
required text answer and an absent required answer) are reported, in question
order. -/
theorem submission_validation_witness :
    specMissingPositions
      [⟨"q1", "Q1", QType.text, [], true, 0⟩,
       ⟨"q2", "Q2", QType.rating, [], false, 1⟩,
       ⟨"q3", "Q3", QType.text, [], true, 2⟩] [("q1", "  ")] =
      missingNumbers
        [⟨"q1", "Q1", QType.text, [], true, 0⟩,
         ⟨"q2", "Q2", QType.rating, [], false, 1⟩,
         ⟨"q3", "Q3", QType.text, [], true, 2⟩] [("q1", "  ")] ∧
    missingNumbers
      [⟨"q1", "Q1", QType.text, [], true, 0⟩,
       ⟨"q2", "Q2", QType.rating, [], false, 1⟩,
       ⟨"q3", "Q3", QType.text, [], true, 2⟩] [("q1", "  ")] = [1, 3] :=
  ⟨((submission_validation_characterisation
      [⟨"q1", "Q1", QType.text, [], true, 0⟩,
       ⟨"q2", "Q2", QType.rating, [], false, 1⟩,
       ⟨"q3", "Q3", QType.text, [], true, 2⟩] [("q1", "  ")]).2.1
      (by decide)).symm, by decide⟩

theorem validateQuestionsEdit_first_bad (l : List Question) (i k : Nat)
    (hk : k < l.length)
    (htext : ∀ q ∈ l, jsTrim q.question_text ≠ "")
    (hbefore : ∀ j, (hj : j < k) →
      ¬ ((l.get ⟨j, lt_trans hj hk⟩).question_type = QType.multiple_choice ∧
        (l.get ⟨j, lt_trans hj hk⟩).options.length < 2))
    (hbad : (l.get ⟨k, hk⟩).question_type = QType.multiple_choice ∧
      (l.get ⟨k, hk⟩).options.length < 2) :
    validateQuestionsEdit i l =
      some ("Question " ++ Nat.repr (i + k + 1) ++ " must have at least 2 options") := by
  induction l generalizing i k with
  | nil => exact absurd hk (by simp)
  | cons a t ih =>
    cases k with
    | zero =>
      have hget : (a :: t).get ⟨0, hk⟩ = a := List.get_cons_zero
      rw [hget] at hbad
      unfold validateQuestionsEdit
      rw [if_neg (htext a (List.mem_cons_self a t)), if_pos hbad]
    | succ k' =>
      have hk' : k' < t.length := Nat.lt_of_succ_lt_succ hk
      have h0 : ¬ (a.question_type = QType.multiple_choice ∧ a.options.length < 2) :=
        hbefore 0 (Nat.succ_pos k')
      have hgetk : (a :: t).get ⟨k' + 1, hk⟩ = t.get ⟨k', hk'⟩ := List.get_cons_succ
      rw [hgetk] at hbad
      unfold validateQuestionsEdit
      rw [if_neg (htext a (List.mem_cons_self a t)), if_neg h0]
      have hbefore' : ∀ j, (hj : j < k') →
          ¬ ((t.get ⟨j, lt_trans hj hk'⟩).question_type = QType.multiple_choice ∧
            (t.get ⟨j, lt_trans hj hk'⟩).options.length < 2) := by
        intro j hj
        have := hbefore (j + 1) (Nat.succ_lt_succ hj)
        rwa [List.get_cons_succ] at this
      have := ih (i + 1) k' hk'
        (fun q hq => htext q (List.mem_cons_of_mem a hq)) hbefore' hbad
      rw [this]
      have harith : i + 1 + k' + 1 = i + (k' + 1) + 1 := by omega
      rw [harith]

/-- Counterexample to C4 as stated: the edit path counts raw options, not
trimmed non-empty ones. A multiple-choice question with options `["a", " "]`
has only one trimmed non-empty option (below the claimed minimum of 2), yet
edit-path validation passes it. -/
theorem save_validation_option_minimum_counterexample :
    validateEdit "T"
      [⟨"q1", "Pick one", QType.multiple_choice, ["a", " "], false, 0⟩] = none ∧
    ((["a", " "].filter (fun o => jsTrim o ≠ "")).length < 2) := by
  constructor
  · rfl
  · decide

/-- C4 (amended). Edit-path save validation fails at the first
`multiple_choice` question whose raw option count is below 2, while the create
path requires at least one trimmed non-empty option per `multiple_choice`
question; a form with one `multiple_choice` question having exactly one
(non-empty) option passes create-path validation and fails edit-path
validation. -/
theorem save_validation_option_minimums :
    (validateCreate "T"
      [⟨"q1", "Pick one", QType.multiple_choice, ["Yes"], false, 0⟩] = none) ∧
    (validateEdit "T"
      [⟨"q1", "Pick one", QType.multiple_choice, ["Yes"], false, 0⟩] =
        some "Question 1 must have at least 2 options") ∧
    (∀ (title : String) (qs : List Question) (k : Nat) (hk : k < qs.length),
      jsTrim title ≠ "" →
      (∀ q ∈ qs, jsTrim q.question_text ≠ "") →
      (∀ j, (hj : j < k) →
        ¬ ((qs.get ⟨j, lt_trans hj hk⟩).question_type = QType.multiple_choice ∧
          (qs.get ⟨j, lt_trans hj hk⟩).options.length < 2)) →
      ((qs.get ⟨k, hk⟩).question_type = QType.multiple_choice ∧
        (qs.get ⟨k, hk⟩).options.length < 2) →
      validateEdit title qs =
        some ("Question " ++ Nat.repr (k + 1) ++ " must have at least 2 options")) ∧
    (∀ (title : String) (qs : List Question),
      jsTrim title ≠ "" → qs ≠ [] →
      (∀ q ∈ qs, jsTrim q.question_text ≠ "") →
      (validateCreate title qs = none ↔
        ∀ q ∈ qs, q.question_type = QType.multiple_choice →
          1 ≤ (q.options.filter (fun o => jsTrim o ≠ "")).length)) := by
  refine ⟨rfl, rfl, ?_, ?_⟩
  · intro title qs k hk htitle htext hbefore hbad
    unfold validateEdit
    rw [if_neg htitle, if_neg (by omega : ¬ qs.length = 0)]
    have := validateQuestionsEdit_first_bad qs 0 k hk htext hbefore hbad
    rwa [Nat.zero_add] at this
  · intro title qs htitle hne htext
    unfold validateCreate
    rw [if_neg htitle, if_neg (fun h => hne (List.length_eq_zero.mp h)),
      if_neg (by
        rw [Nat.not_lt, Nat.le_zero, List.length_eq_zero, List.filter_eq_nil_iff]
        intro q hq
        simpa using htext q hq)]
    constructor
    · intro hnone q hq hmc
      by_contra hlt
      have hzero : (q.options.filter (fun o => jsTrim o ≠ "")).length = 0 := by omega
      have hmem : q ∈ qs.filter (fun q =>
          decide (q.question_type = QType.multiple_choice ∧
            (q.options.filter (fun o => jsTrim o ≠ "")).length = 0)) :=
        List.mem_filter.mpr ⟨hq, by
          simp only [decide_eq_true_eq]
          exact ⟨hmc, hzero⟩⟩
      rw [if_pos (List.length_pos.mpr (List.ne_nil_of_mem hmem))] at hnone
      cases hnone
    · intro hall
      rw [if_neg]
      rw [Nat.not_lt, Nat.le_zero, List.length_eq_zero, List.filter_eq_nil_iff]
      intro q hq
      simp only [decide_eq_true_eq, not_and]
      intro hmc
      have := hall q hq hmc
      omega

/-- Witness for C4's general edit-path conjunct at a concrete form: the single
one-option multiple-choice question is reported as question 1. -/
theorem save_validation_option_minimums_witness :
    validateEdit "Customer survey"
      [⟨"q1", "Pick one", QType.multiple_choice, ["Yes"], false, 0⟩] =
      some "Question 1 must have at least 2 options" := by
  have h := save_validation_option_minimums.2.2.1 "Customer survey"
    [⟨"q1", "Pick one", QType.multiple_choice, ["Yes"], false, 0⟩] 0
    (by decide) (by decide) (by decide)
    (fun j hj => absurd hj (Nat.not_lt_zero j)) (by decide)
  rw [h]
  rfl

/-- C9. Form-save validation checks the empty title before the empty question
list: on a form with empty title and no questions, both the edit path and the
create path report the title-required error, not the question-count error. -/
theorem title_check_precedes_question_check :
    validateEdit "" [] = some "Form title is required" ∧
    validateCreate "" [] = some "Form title is required" :=
  ⟨rfl, rfl⟩

theorem lookup_filter_map (f : String → String) (keep : String × String → Bool)
    (l : List (String × String)) (k v : String)
    (h : List.lookup k l = some v) (hk : keep (k, v) = true) :
    List.lookup k ((l.filter keep).map (fun p => (p.1, f p.2))) = some (f v) := by
  induction l with
  | nil => cases h
  | cons p t ih =>
    rcases p with ⟨k1, v1⟩
    by_cases hkk : (k == k1) = true
    · have hkeq : k1 = k := (by simpa using hkk : k = k1).symm
      have hv1 : v1 = v := by
        simp only [List.lookup_cons, hkk] at h
        simpa using h
      subst hkeq
      subst hv1
      rw [List.filter_cons, if_pos hk, List.map_cons, List.lookup_cons]
      simp [hkk]
    · have hkf : (k == k1) = false := by simpa using hkk
      have hrest : List.lookup k t = some v := by
        simpa [List.lookup_cons, hkf] using h
      rw [List.filter_cons]
      by_cases hkp : keep (k1, v1) = true
      · rw [if_pos hkp, List.map_cons, List.lookup_cons]
        simp only [hkf]
        exact ih hrest
      · rw [if_neg hkp]
        exact ih hrest

/-- Counterexample to C8 as stated: for an arbitrary answer map the round trip
can fail — with no answers at all, assembling and re-validating a form with one
required question reports that question as missing. -/
theorem roundtrip_counterexample :
    validateForm [⟨"q1", "Q1", QType.text, [], true, 0⟩]
      (answersToInsert [⟨"q1", "Q1", QType.text, [], true, 0⟩] []) =
      some "Please answer all required questions. Missing: Question 1" := rfl

/-- C8 (amended). If every required question's answer is present with a
non-empty trimmed value (which any submission that passes validation and has no
whitespace-only non-text answers satisfies), then assembling the submission and
re-validating the stored trimmed answers against the same question set yields
no violations. -/
theorem roundtrip_acceptance (questions : List Question) (answers : AnswerMap)
    (h : ∀ q ∈ questions, q.is_required = true →
      ∃ v, List.lookup q.id answers = some v ∧ jsTrim v ≠ "") :
    validateForm questions (answersToInsert questions answers) = none := by
  rw [validateForm_eq_none_iff]
  intro q hq hreq
  obtain ⟨v, hl, hv⟩ := h q hq hreq
  have hvne : v ≠ "" := ne_empty_of_jsTrim_ne_empty hv
  have hkv : keepAnswer questions q.id v = true := by
    unfold keepAnswer
    rw [if_neg (by simpa using hvne)]
    cases hf : questions.find? (fun q2 => q2.id == q.id) with
    | none => rfl
    | some q2 =>
      show (if (q2.question_type == QType.text) = true then jsTrim v != "" else true) = true
      by_cases ht : (q2.question_type == QType.text) = true
      · rw [if_pos ht]
        simpa using hv
      · rw [if_neg ht]
  have hlook : List.lookup q.id (answersToInsert questions answers) = some (jsTrim v) := by
    unfold answersToInsert
    exact lookup_filter_map jsTrim (fun p => keepAnswer questions p.1 p.2)
      answers q.id v hl hkv
  exact ⟨jsTrim v, hlook, hv, fun _ => by rw [jsTrim_idem]; exact hv⟩

/-- Witness for C8 at a concrete input: a required text question answered with
`"  hi  "` assembles to the stored answer `"hi"`, which re-validates cleanly. -/
theorem roundtrip_acceptance_witness :
    validateForm [⟨"q1", "Q1", QType.text, [], true, 0⟩]
      (answersToInsert [⟨"q1", "Q1", QType.text, [], true, 0⟩]
        [("q1", "  hi  ")]) = none :=
  roundtrip_acceptance [⟨"q1", "Q1", QType.text, [], true, 0⟩] [("q1", "  hi  ")]
    (by
      intro q hq hr
      have hq1 : q = ⟨"q1", "Q1", QType.text, [], true, 0⟩ := by simpa using hq
      subst hq1
      exact ⟨"  hi  ", rfl, by decide⟩)

/-- Counterexample to C5 as stated: not every field of the CSV export is
wrapped in doubled-quote quoting — on a one-answer response the metadata fields
and headers of `exportResponses` are emitted bare, so the output differs from
the uniformly quoted rendering of the same rows. -/
theorem csv_uniform_quoting_counterexample :
    csvFormResponses
      [⟨"r1", "", "1/1/2024", none, [⟨"Q", "text", "He said \"hi\"", 0⟩]⟩] ≠
    csvAllQuotedFR
      [⟨"r1", "", "1/1/2024", none, [⟨"Q", "text", "He said \"hi\"", 0⟩]⟩] := by
  decide

/-- C5 (amended). In `FormResponses.exportResponses` each answer field is
wrapped in double quotes with internal double quotes doubled — `He said "hi"`
renders as the field `"He said ""hi"""` — while the three metadata fields and
the header row are unquoted; in `Responses.exportToCSV` the form-title and
answer fields are wrapped in double quotes without doubling internal quotes and
the date field is unquoted. -/
theorem csv_quoting_behaviour :
    (∀ r : FRResponse, exportRow r =
      [r.id, r.submitted_display, jsOr r.ip_address "N/A"] ++
        r.answers.map (fun a => quoteField a.answer_text)) ∧
    quoteField "He said \"hi\"" = "\"He said \"\"hi\"\"\"" ∧
    csvFormResponses
      [⟨"r1", "", "1/1/2024", none, [⟨"Q", "text", "He said \"hi\"", 0⟩]⟩] =
      "Response ID,Submitted At,IP Address,Q\nr1,1/1/2024,N/A,\"He said \"\"hi\"\"\"" ∧
    csvResponses [⟨"r1", "My Form", "1/1/2024", [⟨"He said \"hi\"", "Q", "text"⟩]⟩] =
      "Form Title,Submitted At,Q\n\"My Form\",1/1/2024,\"He said \"hi\"\"" :=
  ⟨fun _ => rfl, by decide, by decide, by decide⟩

theorem foldl_add_int (l : List Int) (n : Int) :
    l.foldl (fun s v => s + v) n = n + l.sum := by
  induction l generalizing n with
  | nil => simp
  | cons a t ih => simp [List.foldl_cons, ih, List.sum_cons]; omega

theorem round1_intCast (n : Int) : round1 ((n : ℚ)) = ((n : ℚ)) := by
  unfold round1 jsRound
  have h : Int.floor ((n : ℚ) * 10 + 1 / 2) = 10 * n :=
    Int.floor_eq_iff.mpr ⟨by push_cast; linarith, by push_cast; linarith⟩
  rw [h]
  push_cast
  ring

theorem round1_zero : round1 0 = 0 := by
  have h := round1_intCast 0
  simpa using h

theorem ratingAnswersFR_eq (responses : List FRResponse) :
    ratingAnswersFR responses =
      (((responses.flatMap (fun r => r.answers)).filter
          (fun a => a.question_type == "rating")).map
        (fun a => a.answer_text)).filterMap parseIntJS := by
  induction responses with
  | nil => rfl
  | cons r t ih =>
    simp only [ratingAnswersFR, List.flatMap_cons, List.filter_append,
      List.map_append, List.filterMap_append] at ih ⊢
    rw [ih]
    congr 1
    rw [List.filterMap_map, List.filterMap_map]
    rfl

/-- Counterexample to C6 as stated: the global average on the `Responses` page
does not restrict to rating-type questions — it averages every answer matching
`/^[1-5]$/`. With a text answer `"4"` and a rating answer `"3"` it returns 3.5,
while the mean over the rating-type answers alone is 3.0. -/
theorem average_rating_counterexample :
    avgRatingR [⟨"r1", "F", "d", [⟨"4", "Any comments?", "text"⟩,
      ⟨"3", "Rate us", "rating"⟩]⟩] = 7 / 2 ∧
    specAverageRatingR [⟨"r1", "F", "d", [⟨"4", "Any comments?", "text"⟩,
      ⟨"3", "Rate us", "rating"⟩]⟩] = 3 ∧
    (7 / 2 : ℚ) ≠ 3 := by
  refine ⟨?_, ?_, by norm_num⟩
  · have hv : ratingAnswersR [⟨"r1", "F", "d", [⟨"4", "Any comments?", "text"⟩,
        ⟨"3", "Rate us", "rating"⟩]⟩] = [4, 3] := by decide
    have hs : ([4, 3] : List Int).foldl (fun s v => s + v) 0 = 7 := by decide
    simp only [avgRatingR, hv, hs]
    rw [if_pos (by decide : 0 < ([4, 3] : List Int).length)]
    have hx : ((7 : Int) : ℚ) / ((([4, 3] : List Int).length : Nat) : ℚ) = 7 / 2 := by
      norm_num
    rw [hx]
    unfold round1 jsRound
    have h35 : Int.floor ((7 : ℚ) / 2 * 10 + 1 / 2) = 35 :=
      Int.floor_eq_iff.mpr ⟨by norm_num, by norm_num⟩
    rw [h35]
    norm_num
  · have hv : (((([⟨"r1", "F", "d", [⟨"4", "Any comments?", "text"⟩,
        ⟨"3", "Rate us", "rating"⟩]⟩] : List RawResponse).flatMap
          (fun r => r.answers)).filter
          (fun a => a.question_type == "rating")).map
          (fun a => a.answer_text)).filterMap parseIntJS = [3] := by decide
    simp only [specAverageRatingR, hv]
    rw [if_neg (by decide : ¬ ([3] : List Int) = [])]
    have hsum : ([3] : List Int).sum = 3 := by decide
    rw [hsum]
    have hx : ((3 : Int) : ℚ) / ((([3] : List Int).length : Nat) : ℚ) =
        ((3 : Int) : ℚ) := by norm_num
    rw [hx, round1_intCast 3]
    norm_num

/-- C6 (amended). The per-form `avgRating` of the `FormResponses` page equals
the claim's specification: the rounded-to-one-decimal mean of the `parseInt`
parses of exactly the answer texts belonging to rating-type questions,
unparsable texts discarded, 0 when that set is empty; rating answers
`["3", "5", "bad", "1"]` yield 3.0. (The `Responses` page's global average
deviates, see the counterexample.) -/
theorem average_rating_formresponses :
    (∀ responses : List FRResponse,
      avgRatingFR responses = specAverageRatingFR responses) ∧
    avgRatingFR [⟨"r", "", "", none, [⟨"Q", "rating", "3", 0⟩, ⟨"Q", "rating", "5", 0⟩,
      ⟨"Q", "rating", "bad", 0⟩, ⟨"Q", "rating", "1", 0⟩]⟩] = 3 := by
  constructor
  · intro responses
    simp only [avgRatingFR, specAverageRatingFR, ratingAnswersFR_eq]
    set V := (((responses.flatMap (fun r => r.answers)).filter
        (fun a => a.question_type == "rating")).map
        (fun a => a.answer_text)).filterMap parseIntJS with hV
    by_cases hv : V = []
    · rw [if_pos hv, hv]
      norm_num [round1_zero]
    · rw [if_neg hv, if_pos (List.length_pos.mpr hv), foldl_add_int, zero_add]
  · have hv : ratingAnswersFR [⟨"r", "", "", none, [⟨"Q", "rating", "3", 0⟩,
        ⟨"Q", "rating", "5", 0⟩, ⟨"Q", "rating", "bad", 0⟩,
        ⟨"Q", "rating", "1", 0⟩]⟩] = [3, 5, 1] := by decide
    have hs : ([3, 5, 1] : List Int).foldl (fun s v => s + v) 0 = 9 := by decide
    simp only [avgRatingFR, hv, hs]
    rw [if_pos (by decide : 0 < ([3, 5, 1] : List Int).length)]
    have hx : ((9 : Int) : ℚ) / ((([3, 5, 1] : List Int).length : Nat) : ℚ) =
        ((3 : Int) : ℚ) := by norm_num
    rw [hx, round1_intCast 3]
    norm_num

/-- C7. The dashboard 7-day trend has exactly 7 entries; entry `k` carries the
ISO date of the day `6 - k` days before the reference day (so the entries run
oldest-to-newest and end at the reference day inclusive) together with the
count of responses whose `submitted_at` string starts with that date prefix;
when no response matches any of the 7 date prefixes, every count is 0. -/
theorem trailing_daily_counts (monthly : List DashResponse) (today : Int) :
    (trendData monthly today).length = 7 ∧
    (∀ k : Nat, k < 7 →
      (trendData monthly today)[k]? =
        some (isoDate (today - (6 - (k : Int))),
          (monthly.filter (fun r =>
            jsStartsWith r.submitted_at (isoDate (today - (6 - (k : Int)))))).length)) ∧
    ((∀ r ∈ monthly, ∀ k : Nat, k < 7 →
        jsStartsWith r.submitted_at (isoDate (today - (6 - (k : Int)))) = false) →
      ∀ e ∈ trendData monthly today, e.2 = 0) := by
  have hr : List.range 7 = [0, 1, 2, 3, 4, 5, 6] := rfl
  refine ⟨?_, ?_, ?_⟩
  · simp [trendData, last7Days, hr]
  · intro k hk
    interval_cases k <;> simp [trendData, last7Days, hr]
  · intro h e he
    obtain ⟨d, hd, rfl⟩ := List.mem_map.mp he
    obtain ⟨i, hi, rfl⟩ := List.mem_map.mp hd
    simp only [List.length_eq_zero]
    rw [List.filter_eq_nil_iff]
    intro r hrm
    have := h r hrm i (List.mem_range.mp hi)
    simp [this]

/-- Witness for C7 at a concrete input: with reference day 0, the last trend
entry is the reference day 1970-01-01 itself and counts the one matching
response. -/
theorem trailing_daily_counts_witness :
    (trendData [⟨"1970-01-01T09:00:00Z"⟩] 0)[6]? =
      some (isoDate (0 - (6 - ((6 : Nat) : Int))), 1) := by
  have h := (trailing_daily_counts [⟨"1970-01-01T09:00:00Z"⟩] 0).2.1 6 (by omega)
  rw [h]
  decide

end Feedback
